import Mathlib

/-!
Verification of the trade reconciliation pipeline: a shallow embedding of
the ingestion/transformation code (`src/ingest.py`), the staging upsert,
the reconciliation classification and alert-threshold engine
(`src/reconcile.py`), and the email alert gate (`src/email_alerts.py`),
together with theorems settling the specification claims.

Monetary values are embedded as exact rationals (`ℚ`); absent values
(pandas `NaN` / SQL `NULL`) are `Option.none`.
-/

namespace Recon

/-! ### Character-level string helpers

Python's `str.split`, `str.strip`, `str.lower` and numeric parsing,
embedded by structural recursion over the character list of a string. -/

/-- Split a character list on a separator character (`str.split(sep)`):
splitting the empty string yields one empty field. -/
def fieldsOn (sep : Char) : List Char → List (List Char)
  | [] => [[]]
  | c :: cs =>
    let rest := fieldsOn sep cs
    if c == sep then [] :: rest
    else
      match rest with
      | f :: fs => (c :: f) :: fs
      | [] => [[c]]

/-- Split a string on a separator character, as strings. -/
def strSplitOn (sep : Char) (s : String) : List String :=
  (fieldsOn sep s.data).map String.mk

/-- Parse a non-empty all-digit character list as a natural number. -/
def charsToNat? : List Char → Option Nat
  | [] => none
  | c :: cs =>
    if (c :: cs).all Char.isDigit then
      some ((c :: cs).foldl (fun n d => 10 * n + (d.toNat - 48)) 0)
    else none

/-- Model of `str.strip()`: drop leading and trailing whitespace. -/
def trimChars (cs : List Char) : List Char :=
  ((cs.dropWhile Char.isWhitespace).reverse.dropWhile Char.isWhitespace).reverse

/-- Model of `str.strip()` on strings. -/
def strTrim (s : String) : String :=
  String.mk (trimChars s.data)

/-- Model of `str.lower()`. -/
def strToLower (s : String) : String :=
  String.mk (s.data.map Char.toLower)

/-! ### Calendar dates and the Sydney time zone

`transform_chunk.to_utc` parses a `DD/MM/YYYY` string with
`datetime.strptime`, localizes midnight of that date in
`Australia/Sydney` via `pytz`, and converts to UTC. -/

/-- A Gregorian calendar date, as produced by `datetime.strptime("%d/%m/%Y")`. -/
structure Date where
  year : Nat
  month : Nat
  day : Nat
deriving DecidableEq, Repr

/-- A UTC instant at whole-hour granularity (Sydney offsets are whole
hours, and the converted local time is always midnight). -/
structure UtcDateTime where
  date : Date
  hour : Nat
deriving DecidableEq, Repr

/-- Gregorian leap-year rule. -/
def isLeapYear (y : Nat) : Bool :=
  (y % 4 == 0 && y % 100 != 0) || y % 400 == 0

/-- Number of days in a month (1-based month index). -/
def daysInMonth (y m : Nat) : Nat :=
  [31, if isLeapYear y then 29 else 28, 31, 30, 31, 30, 31, 31, 30, 31, 30, 31].getD (m - 1) 0

/-- The day of the week of a Gregorian date (0 = Sunday), Sakamoto's method. -/
def dayOfWeek (y m d : Nat) : Nat :=
  let t := [0, 3, 2, 5, 0, 3, 5, 1, 4, 6, 2, 4]
  let y' := if m < 3 then y - 1 else y
  (y' + y' / 4 - y' / 100 + y' / 400 + t.getD (m - 1) 0 + d) % 7

/-- Day-of-month (1..7) of the first Sunday of a given month. -/
def firstSundayDay (y m : Nat) : Nat :=
  1 + (7 - dayOfWeek y m 1) % 7

/-- Modelled from the spec: the `pytz` zone `Australia/Sydney` is not in the
repository; per the spec (AEST/AEDT), at local midnight of a date the UTC
offset in hours is 11 (AEDT) from the first Sunday of October, exclusive,
through the first Sunday of April, inclusive (daylight saving ends 03:00
and starts 02:00 local, both after midnight), and 10 (AEST) otherwise. -/
def sydneyOffsetHoursAtMidnight (dt : Date) : Nat :=
  if dt.month ≤ 3 then 11
  else if dt.month = 4 then (if dt.day ≤ firstSundayDay dt.year 4 then 11 else 10)
  else if dt.month ≤ 9 then 10
  else if dt.month = 10 then (if firstSundayDay dt.year 10 < dt.day then 11 else 10)
  else 11

/-- A date accepted by `datetime.strptime(_, "%d/%m/%Y")`: a real calendar
date in Python's supported year range. -/
def validDate (y m d : Nat) : Bool :=
  1 ≤ y && y ≤ 9999 && 1 ≤ m && m ≤ 12 && 1 ≤ d && d ≤ daysInMonth y m

/-- Model of `datetime.strptime(s, "%d/%m/%Y")`: three `/`-separated numeric fields,
rejected (a `ValueError`, hence `none`) unless they form a real date. -/
def parseDateStr (s : String) : Option Date :=
  match fieldsOn '/' s.data with
  | [ds, ms, ys] =>
    match charsToNat? ds, charsToNat? ms, charsToNat? ys with
    | some d, some m, some y =>
        if validDate y m d then some ⟨y, m, d⟩ else none
    | _, _, _ => none
  | _ => none

/-- The calendar day before a date. -/
def prevDay (dt : Date) : Date :=
  if 1 < dt.day then ⟨dt.year, dt.month, dt.day - 1⟩
  else if 1 < dt.month then ⟨dt.year, dt.month - 1, daysInMonth dt.year (dt.month - 1)⟩
  else ⟨dt.year - 1, 12, 31⟩

/-- The helper `to_utc` of `transform_chunk`: parse the local date string, localize
midnight in Sydney and convert to UTC (midnight minus the seasonal offset,
which lands at hour `24 - offset` of the previous day); a parse failure is
caught and yields `None`. -/
def toUtc (s : String) : Option UtcDateTime :=
  match parseDateStr s with
  | none => none
  | some d => some ⟨prevDay d, 24 - sydneyOffsetHoursAtMidnight d⟩

/-! ### Raw and transformed trade records (`transform_chunk`) -/

/-- A raw CSV row as read by `pd.read_csv(sep=';', decimal=',')`: the ten
source columns; nullable numerics are `Option ℚ`. -/
structure RawTrade where
  trade_date_aest : String
  trade_number : String
  fill_sequence : Int
  product : String
  market : String
  direction : String
  quantity : Option ℚ
  price : Option ℚ
  counterparty : String
  fee : Option ℚ
deriving DecidableEq, Repr

/-- A row after `transform_chunk`: the ten source columns plus the three
derived columns `is_complete`, `trade_date_utc`, `total_value`. -/
structure StagedTrade where
  trade_date_aest : String
  trade_number : String
  fill_sequence : Int
  product : String
  market : String
  direction : String
  quantity : Option ℚ
  price : Option ℚ
  counterparty : String
  fee : Option ℚ
  is_complete : Bool
  trade_date_utc : Option UtcDateTime
  total_value : Option ℚ
deriving DecidableEq, Repr

/-- One row of `transform_chunk`:
`is_complete = ~(price.isna() | quantity.isna())`,
`trade_date_utc = to_utc(trade_date_aest)`, and
`total_value = price * quantity` with `NaN` propagation (absent if either
factor is absent). -/
def transformRow (r : RawTrade) : StagedTrade :=
  { trade_date_aest := r.trade_date_aest
    trade_number := r.trade_number
    fill_sequence := r.fill_sequence
    product := r.product
    market := r.market
    direction := r.direction
    quantity := r.quantity
    price := r.price
    counterparty := r.counterparty
    fee := r.fee
    is_complete := !(r.price.isNone || r.quantity.isNone)
    trade_date_utc := toUtc r.trade_date_aest
    total_value :=
      match r.price, r.quantity with
      | some p, some q => some (p * q)
      | _, _ => none }

/-- The function `transform_chunk`: the per-row transform applied to every row of the
chunk, in order. -/
def transformChunk (df : List RawTrade) : List StagedTrade :=
  df.map transformRow

/-- Projection of a transformed row back onto its ten source columns. -/
def sourceFields (t : StagedTrade) : RawTrade :=
  { trade_date_aest := t.trade_date_aest
    trade_number := t.trade_number
    fill_sequence := t.fill_sequence
    product := t.product
    market := t.market
    direction := t.direction
    quantity := t.quantity
    price := t.price
    counterparty := t.counterparty
    fee := t.fee }

/-! ### The staging store and `load_chunk`

`load_chunk` executes, per row, an `INSERT ... ON CONFLICT (trade_number,
fill_sequence) DO UPDATE SET price, quantity, total_value, is_complete,
updated_at` against `stg.clearing_trades`.  The table is keyed uniquely by
`(trade_number, fill_sequence)`, so the store is a partial map from that
key.  The wall-clock `updated_at` column is outside the model. -/

/-- The unique key of `stg.clearing_trades`: `(trade_number, fill_sequence)`. -/
abbrev StoreKey := String × Int

/-- A stored row of `stg.clearing_trades` (minus the `updated_at` clock). -/
structure StoredTrade where
  trade_number : String
  fill_sequence : Int
  product : String
  market : String
  direction : String
  quantity : Option ℚ
  price : Option ℚ
  counterparty : String
  fee : Option ℚ
  trade_date_aest : String
  trade_date_utc : Option UtcDateTime
  is_complete : Bool
  total_value : Option ℚ
deriving DecidableEq, Repr

/-- The staging table: a map on the unique key. -/
abbrev Store := StoreKey → Option StoredTrade

/-- The empty staging table. -/
def emptyStore : Store := fun _ => none

/-- The key of an incoming row. -/
def keyOf (r : StagedTrade) : StoreKey := (r.trade_number, r.fill_sequence)

/-- The `INSERT` branch: all columns taken from the incoming row. -/
def insertRow (r : StagedTrade) : StoredTrade :=
  { trade_number := r.trade_number
    fill_sequence := r.fill_sequence
    product := r.product
    market := r.market
    direction := r.direction
    quantity := r.quantity
    price := r.price
    counterparty := r.counterparty
    fee := r.fee
    trade_date_aest := r.trade_date_aest
    trade_date_utc := r.trade_date_utc
    is_complete := r.is_complete
    total_value := r.total_value }

/-- The `DO UPDATE` branch: only `price`, `quantity`, `total_value` and
`is_complete` are overwritten; every other column keeps its stored value. -/
def updateRow (old : StoredTrade) (r : StagedTrade) : StoredTrade :=
  { old with
    price := r.price
    quantity := r.quantity
    total_value := r.total_value
    is_complete := r.is_complete }

/-- The effect of one upsert statement on the row stored at the row's key. -/
def applyUpsert : Option StoredTrade → StagedTrade → StoredTrade
  | none, r => insertRow r
  | some old, r => updateRow old r

/-- One upsert statement against the store. -/
def upsertRow (s : Store) (r : StagedTrade) : Store :=
  fun k => if k = keyOf r then some (applyUpsert (s (keyOf r)) r) else s k

/-- The rows of a chunk upserted in order (the loop body of `load_chunk`). -/
def loadRows (s : Store) (rows : List StagedTrade) : Store :=
  rows.foldl upsertRow s

/-- Modelled failure of one row's upsert statement inside the transaction:
the statement re-parses the raw date with `TO_DATE(:trade_date_aest,
'DD/MM/YYYY')`, which raises on a string that is not a valid date. -/
def rowPersistFails (r : StagedTrade) : Bool :=
  (parseDateStr r.trade_date_aest).isNone

/-- The function `load_chunk` proper: the chunk runs inside one transaction
(`engine.begin()`), so any failing statement rolls the whole chunk back
(`none`); otherwise every row is applied. -/
def loadChunkTx (fail : StagedTrade → Bool) (s : Store) (rows : List StagedTrade) :
    Option Store :=
  if rows.any fail then none else some (loadRows s rows)

/-- The chunk loop of `run_pipeline`: chunks are loaded sequentially; a
failed chunk re-raises, so no later chunk is attempted.  Returns the final
store and whether the run succeeded. -/
def runBatches (fail : StagedTrade → Bool) : Store → List (List StagedTrade) → Store × Bool
  | s, [] => (s, true)
  | s, b :: bs =>
    match loadChunkTx fail s b with
    | none => (s, false)
    | some s' => runBatches fail s' bs

/-! ### Reconciliation rows, the critical filter and summary stats

`run_reconciliation` reads the external join view, renames its columns
(`bank_value → trade_total`, `exchange_value → invoice_total`,
`value_diff → amount_diff`, `recon_status → status`), computes summary
statistics over all rows, and filters the critical subset with
`(amount_diff.abs() >= threshold) | status.str.contains('MISSING')`. -/

/-- A row of the mapped reconciliation dataset (`df_mapped`). -/
structure ReconRow where
  record_ref : String
  product : String
  counterparty : String
  trade_total : Option ℚ
  invoice_total : Option ℚ
  amount_diff : ℚ
  status : String
deriving DecidableEq, Repr

/-- The four status values the join view classifies rows into. -/
inductive ReconStatus
  | matched
  | discrepancy
  | missingInBank
  | missingInExchange
deriving DecidableEq, Repr

/-- The status string the join view emits for each classification. -/
def statusText : ReconStatus → String
  | .matched => "MATCHED"
  | .discrepancy => "DISCREPANCY"
  | .missingInBank => "MISSING IN BANK"
  | .missingInExchange => "MISSING IN EXCHANGE"

/-- Whether `needle` starts the list `hay`. -/
def startsWithChars : List Char → List Char → Bool
  | [], _ => true
  | _ :: _, [] => false
  | n :: ns, h :: hs => (n == h) && startsWithChars ns hs

/-- Whether `needle` occurs contiguously inside `hay`. -/
def hasSubChars (needle : List Char) : List Char → Bool
  | [] => needle.isEmpty
  | c :: cs => startsWithChars needle (c :: cs) || hasSubChars needle cs

/-- Model of `pandas.Series.str.contains` with a literal pattern: substring test. -/
def strContainsStr (hay needle : String) : Bool :=
  hasSubChars needle.data hay.data

/-- The critical-alert predicate of `run_reconciliation`. -/
def isCritical (threshold : ℚ) (r : ReconRow) : Bool :=
  decide (threshold ≤ |r.amount_diff|) || strContainsStr r.status ("MISSING")

/-- The critical subset: the rows passing the critical-alert filter. -/
def criticalFilter (threshold : ℚ) (rows : List ReconRow) : List ReconRow :=
  rows.filter (isCritical threshold)

/-- The `summary_stats` dictionary (with `critical_alerts` already updated
from its initial 0 to the size of the critical subset, as happens before
the summary is used). -/
structure SummaryStats where
  total_contracts : Nat
  matched : Nat
  discrepancies : Nat
  missing_trades : Nat
  missing_invoices : Nat
  critical_alerts : Nat
  total_discrepancy_amount : ℚ
deriving DecidableEq, Repr

/-- The summary computation of `run_reconciliation` over the mapped dataset. -/
def summaryStats (threshold : ℚ) (rows : List ReconRow) : SummaryStats :=
  { total_contracts := rows.length
    matched := (rows.filter (fun r => r.status == "MATCHED")).length
    discrepancies := (rows.filter (fun r => r.status == "DISCREPANCY")).length
    missing_trades := (rows.filter (fun r => r.status == "MISSING IN BANK")).length
    missing_invoices := (rows.filter (fun r => r.status == "MISSING IN EXCHANGE")).length
    critical_alerts := (criticalFilter threshold rows).length
    total_discrepancy_amount := (rows.map (fun r => |r.amount_diff|)).sum }

/-! ### Process exit codes

`run_pipeline` returns normally (exit 0 from `__main__`) when the file is
missing; any exception inside the `try` block — in particular a
persistence failure re-raised by `load_chunk` — hits `sys.exit(1)`.
`run_reconciliation` wraps everything in `try/except` that only logs, so
the process always exits 0, whatever the join query or the alert
delivery did. -/

/-- Exit code of the ingest entry point. -/
def runPipelineExitCode (fileExists : Bool) (fail : StagedTrade → Bool)
    (batches : List (List StagedTrade)) : Nat :=
  if fileExists then
    if (runBatches fail emptyStore batches).2 then 0 else 1
  else 0

/-- Exit code of the reconciliation entry point: the `except` clause of
`run_reconciliation` catches every exception (a failed join query is
`queryResult = none`) and only logs it; an email failure is caught inside
`AlertManager.send_alerts` / `EmailAlertSender.send_alerts` and never
raises.  The process return value is 0 on every path. -/
def runReconciliationExitCode (queryResult : Option (List ReconRow))
    (emailDeliveryOk : Bool) : Nat :=
  match queryResult, emailDeliveryOk with
  | none, _ => 0
  | some _, _ => 0

/-! ### The email alert gate (`EmailAlertSender`) -/

/-- The environment variables `EmailAlertSender.__init__` reads. -/
structure EmailEnv where
  emailEnabled : Option String
  emailTo : Option String
deriving DecidableEq, Repr

/-- The recipient list: `EMAIL_TO` split on commas, entries stripped,
empty entries dropped. -/
def parseRecipients (s : String) : List String :=
  ((strSplitOn ',' s).map strTrim).filter (fun e => !(e == ""))

/-- The sender state after `__init__`. -/
structure EmailSender where
  enabled : Bool
  toEmails : List String
deriving DecidableEq, Repr

/-- The constructor `EmailAlertSender.__init__`: `enabled` is `EMAIL_ENABLED` (default
`'false'`) lower-cased equal to `'true'`; if enabled but the recipient
list is empty, the sender disables itself. -/
def mkEmailSender (env : EmailEnv) : EmailSender :=
  let en := strToLower (env.emailEnabled.getD ("false")) == "true"
  let tos := parseRecipients (env.emailTo.getD (""))
  if en && tos.isEmpty then { enabled := false, toEmails := tos }
  else { enabled := en, toEmails := tos }

/-- The observable outcome of `EmailAlertSender.send_alerts`: its return
value, and whether an SMTP connection was opened. -/
structure SendOutcome where
  sent : Bool
  smtpAttempted : Bool
deriving DecidableEq, Repr

/-- The method `EmailAlertSender.send_alerts`: returns `False` before any SMTP work
when the sender is disabled, when the alert frame is empty, or when the
SMTP credentials are unset; otherwise it connects and reports delivery. -/
def sendAlerts (sender : EmailSender) (alertsEmpty : Bool) (credsPresent : Bool)
    (smtpOk : Bool) : SendOutcome :=
  if !sender.enabled then ⟨false, false⟩
  else if alertsEmpty then ⟨false, false⟩
  else if !credsPresent then ⟨false, false⟩
  else ⟨smtpOk, true⟩

/-! ### Characterization of the upsert fold -/

/-- One upsert step viewed at a single key's stored value. -/
def upsertAt (o : Option StoredTrade) (r : StagedTrade) : Option StoredTrade :=
  some (applyUpsert o r)

/-- The columns the `DO UPDATE` branch leaves untouched. -/
def keptOf (t : StoredTrade) :
    String × Int × String × String × String × String × Option ℚ × String × Option UtcDateTime :=
  (t.trade_number, t.fill_sequence, t.product, t.market, t.direction, t.counterparty, t.fee,
    t.trade_date_aest, t.trade_date_utc)

lemma keptOf_updateRow (x : StoredTrade) (r : StagedTrade) :
    keptOf (updateRow x r) = keptOf x := rfl

lemma updateRow_eq_of_keptOf {x y : StoredTrade} (r : StagedTrade)
    (h : keptOf x = keptOf y) : updateRow x r = updateRow y r := by
  cases x
  cases y
  simp only [keptOf, Prod.mk.injEq] at h
  obtain ⟨h1, h2, h3, h4, h5, h6, h7, h8, h9⟩ := h
  subst h1
  subst h2
  subst h3
  subst h4
  subst h5
  subst h6
  subst h7
  subst h8
  subst h9
  rfl

lemma updateRow_applyUpsert (o : Option StoredTrade) (r : StagedTrade) :
    updateRow (applyUpsert o r) r = applyUpsert o r := by
  cases o <;> rfl

/-- Looking one key up after loading a chunk is the upsert fold over the
chunk's rows at that key. -/
lemma loadRows_lookup (rows : List StagedTrade) (s : Store) (k : StoreKey) :
    loadRows s rows k =
      (rows.filter (fun r => decide (keyOf r = k))).foldl upsertAt (s k) := by
  induction rows generalizing s with
  | nil => rfl
  | cons r rs ih =>
    show loadRows (upsertRow s r) rs k = _
    rw [ih]
    by_cases h : keyOf r = k
    · simp [upsertRow, upsertAt, List.filter_cons, h]
    · have hk : ¬(k = keyOf r) := fun hh => h hh.symm
      simp [upsertRow, hk, List.filter_cons, h]

/-- Folding upserts from a present row keeps the row present and leaves the
non-overwritten columns unchanged. -/
lemma foldl_upsertAt_some (l : List StagedTrade) (x : StoredTrade) :
    ∃ z, l.foldl upsertAt (some x) = some z ∧ keptOf z = keptOf x := by
  induction l generalizing x with
  | nil => exact ⟨x, rfl, rfl⟩
  | cons r t ih =>
    obtain ⟨z, hz, hk⟩ := ih (updateRow x r)
    exact ⟨z, hz, by rw [hk, keptOf_updateRow]⟩

lemma foldl_upsertAt_congr (l : List StagedTrade) {x y : StoredTrade}
    (h : keptOf x = keptOf y) (hne : l ≠ []) :
    l.foldl upsertAt (some x) = l.foldl upsertAt (some y) := by
  cases l with
  | nil => exact absurd rfl hne
  | cons r t =>
    show t.foldl upsertAt (some (updateRow x r)) = t.foldl upsertAt (some (updateRow y r))
    rw [updateRow_eq_of_keptOf r h]

/-- The upsert fold is idempotent at every key. -/
lemma foldl_upsertAt_idem (l : List StagedTrade) (o : Option StoredTrade) :
    l.foldl upsertAt (l.foldl upsertAt o) = l.foldl upsertAt o := by
  cases l with
  | nil => rfl
  | cons r t =>
    obtain ⟨z, hz, hk⟩ := foldl_upsertAt_some t (applyUpsert o r)
    have ha : (r :: t).foldl upsertAt o = some z := hz
    rw [ha]
    show t.foldl upsertAt (some (updateRow z r)) = some z
    by_cases ht : t = []
    · subst ht
      have hzx : applyUpsert o r = z := by simpa using hz
      show some (updateRow z r) = some z
      rw [← hzx, updateRow_applyUpsert]
    · rw [foldl_upsertAt_congr t (x := updateRow z r) (y := applyUpsert o r)
        (by rw [keptOf_updateRow, hk]) ht]
      exact hz

/-- The mutable columns after the upsert fold are those of the last row
folded in. -/
lemma foldl_upsertAt_getLast (l : List StagedTrade) (o : Option StoredTrade)
    (r : StagedTrade) (h : l.getLast? = some r) :
    ∃ z, l.foldl upsertAt o = some z ∧ z.price = r.price ∧ z.quantity = r.quantity ∧
      z.total_value = r.total_value ∧ z.is_complete = r.is_complete := by
  induction l generalizing o with
  | nil => cases h
  | cons a t ih =>
    cases t with
    | nil =>
      have hra : r = a := by
        have := h
        simp [List.getLast?] at this
        exact this.symm
      subst hra
      refine ⟨applyUpsert o r, rfl, ?_, ?_, ?_, ?_⟩ <;> cases o <;> rfl
    | cons b t' =>
      have h' : (b :: t').getLast? = some r := by
        rw [← List.getLast?_cons_cons]
        exact h
      exact ih (upsertAt o a) h'

/-- The last row of a chunk carrying a given key (the one whose mutable
columns the upsert leaves in place). -/
def lastRowFor (k : StoreKey) (rows : List StagedTrade) : Option StagedTrade :=
  (rows.filter (fun r => decide (keyOf r = k))).getLast?

/-! ### Concrete sample data for instantiations -/

/-- A well-formed staged row. -/
def goodStaged : StagedTrade :=
  { trade_date_aest := "14/01/2025"
    trade_number := "T001"
    fill_sequence := 1
    product := "PWR-NORDIC"
    market := "EEX"
    direction := "BUY"
    quantity := some 5
    price := some 2
    counterparty := "STATKRAFT"
    fee := none
    is_complete := true
    trade_date_utc := toUtc ("14/01/2025")
    total_value := some 10 }

/-- The same key re-ingested with updated mutable values. -/
def goodStagedV2 : StagedTrade :=
  { goodStaged with price := some 3, total_value := some 15 }

/-- A raw row whose date string is malformed (month 13). -/
def malformedDateRaw : RawTrade :=
  { trade_date_aest := "31/13/2025"
    trade_number := "T009"
    fill_sequence := 1
    product := "EUA"
    market := "EEX"
    direction := "BUY"
    quantity := some 4
    price := some 2
    counterparty := "SHELL"
    fee := none }

/-- The staged form of `malformedDateRaw`. -/
def badStaged : StagedTrade := transformRow malformedDateRaw

/-- A raw row missing its price (incomplete but parseable). -/
def incompleteRaw : RawTrade :=
  { trade_date_aest := "14/01/2025"
    trade_number := "T002"
    fill_sequence := 1
    product := "GAS-UK"
    market := "EEX"
    direction := "SELL"
    quantity := some 10
    price := none
    counterparty := "BP"
    fee := none }

/-- A raw row exercising decimal arithmetic (price 0.1, quantity 3). -/
def decimalRaw : RawTrade :=
  { trade_date_aest := "14/01/2025"
    trade_number := "T010"
    fill_sequence := 1
    product := "GAS-UK"
    market := "EEX"
    direction := "SELL"
    quantity := some 3
    price := some (1/10)
    counterparty := "BP"
    fee := none }

/-- Scenario D: a missing-exchange row whose difference magnitude is zero. -/
def missingSideRow : ReconRow :=
  { record_ref := "T004-1"
    product := "EUA"
    counterparty := "SHELL"
    trade_total := some 0
    invoice_total := none
    amount_diff := 0
    status := "MISSING IN EXCHANGE" }

/-! ### Supporting lemmas for the claims -/

/-- Substring matching on `MISSING` picks out exactly the two missing-side
statuses among the four classifier outputs. -/
lemma statusText_missing (st : ReconStatus) :
    strContainsStr (statusText st) ("MISSING") = true ↔
      st = ReconStatus.missingInBank ∨ st = ReconStatus.missingInExchange := by
  cases st <;> decide

/-- A list sum splits into the part passing a filter and the part failing it. -/
lemma sum_map_filter_split (p : ReconRow → Bool) (f : ReconRow → ℚ) :
    ∀ l : List ReconRow,
      ((l.filter p).map f).sum + ((l.filter fun r => !p r).map f).sum = (l.map f).sum := by
  intro l
  induction l with
  | nil => simp
  | cons r t ih =>
    cases hp : p r <;> simp [List.filter_cons, hp, ← ih] <;> ring

/-! ### Claim theorems -/

/-- C1: for every classified reconciliation row and every non-negative
threshold, the row is in the critical subset iff `|value_diff| >= threshold`
or its status is MISSING IN BANK or MISSING IN EXCHANGE; in particular a
missing-side row with a zero-magnitude difference is still critical. -/
theorem critical_subset_iff (rows : List ReconRow) (r : ReconRow) (t : ℚ)
    (st : ReconStatus) (ht : 0 ≤ t) (hst : r.status = statusText st) :
    r ∈ criticalFilter t rows ↔
      r ∈ rows ∧ (t ≤ |r.amount_diff| ∨ st = ReconStatus.missingInBank ∨
        st = ReconStatus.missingInExchange) := by
  have hp : (isCritical t r = true) ↔
      (t ≤ |r.amount_diff| ∨ st = ReconStatus.missingInBank ∨
        st = ReconStatus.missingInExchange) := by
    rw [isCritical, Bool.or_eq_true, decide_eq_true_eq, hst, statusText_missing st]
  rw [criticalFilter, List.mem_filter, hp]

/-- Witness for C1: scenario D — a MISSING IN EXCHANGE row with
`value_diff = 0` is in the critical subset at threshold 100. -/
theorem critical_subset_iff_witness :
    (0 : ℚ) ≤ 100 ∧ missingSideRow ∈ criticalFilter 100 [missingSideRow] := by
  refine ⟨by norm_num, ?_⟩
  refine (critical_subset_iff [missingSideRow] missingSideRow 100
    ReconStatus.missingInExchange (by norm_num) rfl).mpr ?_
  exact ⟨List.mem_singleton.mpr rfl, Or.inr (Or.inr rfl)⟩

/-- C2: `total_discrepancy_amount` is the sum of `|value_diff|` over all
rows, independent of the threshold and of which rows are critical (it also
splits as critical part plus non-critical part), and `critical_alerts` is
the size of the critical subset. -/
theorem summary_totals (t t' : ℚ) (rows : List ReconRow) :
    (summaryStats t rows).total_discrepancy_amount =
        (rows.map fun r => |r.amount_diff|).sum
    ∧ (summaryStats t rows).total_discrepancy_amount =
        (summaryStats t' rows).total_discrepancy_amount
    ∧ (summaryStats t rows).critical_alerts = (criticalFilter t rows).length
    ∧ ((criticalFilter t rows).map fun r => |r.amount_diff|).sum
        + ((rows.filter fun r => !isCritical t r).map fun r => |r.amount_diff|).sum
        = (summaryStats t rows).total_discrepancy_amount :=
  ⟨rfl, rfl, rfl, sum_map_filter_split (isCritical t) (fun r => |r.amount_diff|) rows⟩

/-- C3 (exact-decimal model): in the transformer, `is_complete` holds iff
both price and quantity are present, and `total_value` is the exact product
when both are present and absent (never zero) when either is missing.  The
code computes the product in binary float64, not exact decimal; this
theorem evaluates the exact-decimal counterpart. -/
theorem transform_complete_and_total :
    (∀ r : RawTrade, (transformRow r).is_complete = (r.price.isSome && r.quantity.isSome))
    ∧ (∀ (r : RawTrade) (p q : ℚ), r.price = some p → r.quantity = some q →
        (transformRow r).total_value = some (p * q))
    ∧ (∀ r : RawTrade, r.price = none ∨ r.quantity = none →
        (transformRow r).total_value = none) := by
  refine ⟨?_, ?_, ?_⟩
  · intro r
    cases hp : r.price <;> cases hq : r.quantity <;> simp [transformRow, hp, hq]
  · intro r p q hp hq
    simp [transformRow, hp, hq]
  · intro r h
    rcases h with h | h
    · simp [transformRow, h]
    · cases hp : r.price <;> simp [transformRow, hp, h]

/-- Witness for C3: at price 1/10 and quantity 3 the exact-decimal product
is 3/10 (the float64 pipeline instead stores 0.30000000000000004). -/
theorem transform_complete_and_total_witness :
    (transformRow decimalRaw).total_value = some ((1 : ℚ)/10 * 3)
    ∧ (1 : ℚ)/10 * 3 = 3/10
    ∧ (transformRow decimalRaw).is_complete = true := by
  refine ⟨transform_complete_and_total.2.1 decimalRaw ((1 : ℚ)/10) 3 rfl rfl, by norm_num, ?_⟩
  rw [transform_complete_and_total.1 decimalRaw]
  rfl

/-- C4: the keyed upsert is idempotent — reloading the same chunk leaves
the store pointwise identical; reloading a chunk with updated values for an
existing key converges the mutable columns to the new values without
duplication (the store stays a map on the unique key), and the conflict
branch never modifies the identifying columns `trade_number` and
`fill_sequence`. -/
theorem load_idempotent_upsert :
    (∀ (s : Store) (df : List StagedTrade), loadRows (loadRows s df) df = loadRows s df)
    ∧ (∀ (s : Store) (df : List StagedTrade) (k : StoreKey) (r : StagedTrade),
        lastRowFor k df = some r →
          ∃ st, loadRows s df k = some st ∧ st.price = r.price ∧ st.quantity = r.quantity ∧
            st.total_value = r.total_value ∧ st.is_complete = r.is_complete)
    ∧ (∀ (s : Store) (df : List StagedTrade) (k : StoreKey) (old : StoredTrade),
        s k = some old →
          ∃ st, loadRows s df k = some st ∧ st.trade_number = old.trade_number ∧
            st.fill_sequence = old.fill_sequence) := by
  refine ⟨?_, ?_, ?_⟩
  · intro s df
    funext k
    rw [loadRows_lookup df (loadRows s df) k, loadRows_lookup df s k]
    exact foldl_upsertAt_idem _ (s k)
  · intro s df k r h
    rw [loadRows_lookup]
    exact foldl_upsertAt_getLast _ _ _ h
  · intro s df k old h
    rw [loadRows_lookup, h]
    obtain ⟨z, hz, hk⟩ := foldl_upsertAt_some (df.filter fun r => decide (keyOf r = k)) old
    exact ⟨z, hz, congrArg (fun p => p.1) hk, congrArg (fun p => p.2.1) hk⟩

/-- Witness for C4: reloading a one-row chunk is the identity on the store,
and reloading the key with updated values converges price/total to the new
values while keeping the identifying columns. -/
theorem load_idempotent_upsert_witness :
    loadRows (loadRows emptyStore [goodStaged]) [goodStaged] = loadRows emptyStore [goodStaged]
    ∧ (∃ st, loadRows (loadRows emptyStore [goodStaged]) [goodStagedV2] ("T001", 1) = some st ∧
        st.price = goodStagedV2.price ∧ st.quantity = goodStagedV2.quantity ∧
        st.total_value = goodStagedV2.total_value ∧ st.is_complete = goodStagedV2.is_complete)
    ∧ (∃ st, loadRows (loadRows emptyStore [goodStaged]) [goodStagedV2] ("T001", 1) = some st ∧
        st.trade_number = (insertRow goodStaged).trade_number ∧
        st.fill_sequence = (insertRow goodStaged).fill_sequence) := by
  refine ⟨load_idempotent_upsert.1 emptyStore [goodStaged], ?_, ?_⟩
  · exact load_idempotent_upsert.2.1 (loadRows emptyStore [goodStaged]) [goodStagedV2]
      ("T001", 1) goodStagedV2 rfl
  · exact load_idempotent_upsert.2.2 (loadRows emptyStore [goodStaged]) [goodStagedV2]
      ("T001", 1) (insertRow goodStaged) rfl

/-- C5: a well-formed local date string is converted to the UTC instant of
local midnight using the seasonal Sydney offset for that date, not a fixed
one: 14/01/2025 (AEDT, +11) maps to 2025-01-13T13:00:00 while 14/06/2025
(AEST, +10) maps to 2025-06-13T14:00:00, and 01/01/2025 crosses the year
boundary to 2024-12-31T13:00:00. -/
theorem to_utc_seasonal :
    (∀ (s : String) (d : Date), parseDateStr s = some d →
        toUtc s = some ⟨prevDay d, 24 - sydneyOffsetHoursAtMidnight d⟩)
    ∧ toUtc ("14/01/2025") = some ⟨⟨2025, 1, 13⟩, 13⟩
    ∧ toUtc ("14/06/2025") = some ⟨⟨2025, 6, 13⟩, 14⟩
    ∧ toUtc ("01/01/2025") = some ⟨⟨2024, 12, 31⟩, 13⟩
    ∧ sydneyOffsetHoursAtMidnight ⟨2025, 1, 14⟩ = 11
    ∧ sydneyOffsetHoursAtMidnight ⟨2025, 6, 14⟩ = 10 := by
  refine ⟨?_, by decide, by decide, by decide, by decide, by decide⟩
  intro s d h
  simp [toUtc, h]

/-- Witness for C5 at the spec's example date. -/
theorem to_utc_seasonal_witness :
    toUtc ("14/01/2025") =
      some ⟨prevDay ⟨2025, 1, 14⟩, 24 - sydneyOffsetHoursAtMidnight ⟨2025, 1, 14⟩⟩ :=
  to_utc_seasonal.1 ("14/01/2025") ⟨2025, 1, 14⟩ (by decide)

/-- C6 (behavior at the failing input): a malformed-date row is NOT
excluded by the transformer — it stays in the chunk with
`trade_date_utc = None` — and its persistence (the SQL `TO_DATE` re-parse)
aborts the whole batch instead of letting the run continue; an
incomplete-but-parseable row is persisted with `is_complete = false`. -/
theorem malformed_date_not_excluded :
    (transformChunk [malformedDateRaw]).length = 1
    ∧ (transformChunk [malformedDateRaw]).map (fun t => t.trade_date_utc) = [none]
    ∧ (transformChunk [malformedDateRaw]).map (fun t => t.is_complete) = [true]
    ∧ loadChunkTx rowPersistFails emptyStore (transformChunk [malformedDateRaw]) = none
    ∧ (transformChunk [incompleteRaw]).map (fun t => t.is_complete) = [false]
    ∧ loadChunkTx rowPersistFails emptyStore (transformChunk [incompleteRaw]) =
        some (loadRows emptyStore (transformChunk [incompleteRaw])) :=
  ⟨rfl, rfl, rfl, rfl, rfl, rfl⟩

/-- C7: each chunk is transactional — when a chunk fails, the store holds
exactly the fully applied preceding chunks (none of the failing chunk's
rows are visible) and no later chunk is attempted; with no failures every
chunk is applied and the run succeeds. -/
theorem batch_atomicity :
    (∀ (fail : StagedTrade → Bool) (s : Store) (pre : List (List StagedTrade))
        (b : List StagedTrade) (post : List (List StagedTrade)),
        (∀ c ∈ pre, c.any fail = false) → b.any fail = true →
          runBatches fail s (pre ++ b :: post) = (pre.foldl loadRows s, false))
    ∧ (∀ (fail : StagedTrade → Bool) (s : Store) (bs : List (List StagedTrade)),
        (∀ c ∈ bs, c.any fail = false) →
          runBatches fail s bs = (bs.foldl loadRows s, true)) := by
  constructor
  · intro fail s pre b post
    induction pre generalizing s with
    | nil =>
      intro _ hb
      simp [runBatches, loadChunkTx, hb]
    | cons c cs ih =>
      intro hpre hb
      have hc : c.any fail = false := hpre c (List.mem_cons_self c cs)
      show runBatches fail s (c :: (cs ++ b :: post)) = _
      rw [runBatches]
      simp only [loadChunkTx, hc, Bool.false_eq_true, if_false]
      exact ih (loadRows s c) (fun c' h' => hpre c' (List.mem_cons_of_mem c h')) hb
  · intro fail s bs
    induction bs generalizing s with
    | nil => intro _; rfl
    | cons c cs ih =>
      intro hbs
      have hc : c.any fail = false := hbs c (List.mem_cons_self c cs)
      rw [runBatches]
      simp only [loadChunkTx, hc, Bool.false_eq_true, if_false]
      exact ih (loadRows s c) (fun c' h' => hbs c' (List.mem_cons_of_mem c h'))

/-- Witness for C7: a failing middle chunk leaves only the first chunk
applied and stops, and the same pipeline without the bad chunk succeeds. -/
theorem batch_atomicity_witness :
    runBatches rowPersistFails emptyStore ([[goodStaged]] ++ [badStaged] :: [[goodStagedV2]])
      = ([[goodStaged]].foldl loadRows emptyStore, false)
    ∧ runBatches rowPersistFails emptyStore [[goodStaged]]
      = ([[goodStaged]].foldl loadRows emptyStore, true) := by
  constructor
  · refine batch_atomicity.1 rowPersistFails emptyStore [[goodStaged]] [badStaged]
      [[goodStagedV2]] ?_ rfl
    intro c hc
    rw [List.mem_singleton] at hc
    subst hc
    rfl
  · refine batch_atomicity.2 rowPersistFails emptyStore [[goodStaged]] ?_
    intro c hc
    rw [List.mem_singleton] at hc
    subst hc
    rfl

/-- Counterexample to C8 as stated: two fatal failures with exit code 0 —
a missing input file makes `run_pipeline` return normally (process exit 0),
and a failed reconciliation join query is swallowed by the catch-all
`except`, so the reconciliation entry point also exits 0. -/
theorem exit_code_counterexample :
    runPipelineExitCode false (fun _ => false) [[goodStaged]] = 0
    ∧ runReconciliationExitCode none true = 0 :=
  ⟨rfl, rfl⟩

/-- C8 as amended: a persistence failure exits 1 and full success exits 0,
and alert-delivery failures never affect the exit code; but a missing input
file and a reconciliation-query failure are only logged and exit 0. -/
theorem exit_code_behavior (fail : StagedTrade → Bool)
    (batches : List (List StagedTrade)) (q : Option (List ReconRow)) (e : Bool) :
    runPipelineExitCode false fail batches = 0
    ∧ ((runBatches fail emptyStore batches).2 = true →
        runPipelineExitCode true fail batches = 0)
    ∧ ((runBatches fail emptyStore batches).2 = false →
        runPipelineExitCode true fail batches = 1)
    ∧ runReconciliationExitCode q e = 0 := by
  refine ⟨rfl, fun h => ?_, fun h => ?_, ?_⟩
  · simp [runPipelineExitCode, h]
  · simp [runPipelineExitCode, h]
  · cases q <;> rfl

/-- Witness for C8: a clean run exits 0, a run whose chunk fails exits 1,
and the reconciliation entry point exits 0 both with and without an email
failure. -/
theorem exit_code_behavior_witness :
    runPipelineExitCode true (fun _ => false) [[goodStaged]] = 0
    ∧ runPipelineExitCode true rowPersistFails [[badStaged]] = 1
    ∧ runReconciliationExitCode (some []) false = 0 :=
  ⟨(exit_code_behavior (fun _ => false) [[goodStaged]] none true).2.1 rfl,
   (exit_code_behavior rowPersistFails [[badStaged]] none true).2.2.1 rfl,
   (exit_code_behavior (fun _ => false) [] (some []) false).2.2.2⟩

/-- C9: the transformation preserves the chunk's row count and order and
every source column's values, only adding the derived columns: projecting
the transformed chunk back onto the ten source columns returns the input
chunk itself. -/
theorem transform_preserves_source (df : List RawTrade) :
    (transformChunk df).map sourceFields = df
    ∧ (transformChunk df).length = df.length := by
  constructor
  · rw [transformChunk, List.map_map]
    have h : sourceFields ∘ transformRow = id := funext fun r => rfl
    rw [h, List.map_id]
  · rw [transformChunk, List.length_map]

/-- C10: with `EMAIL_ENABLED` equal to `true` but no non-empty recipient in
`EMAIL_TO`, the sender constructs itself disabled and `send_alerts` returns
`False` without opening an SMTP connection, whatever the alert data. -/
theorem email_disabled_without_recipients (env : EmailEnv)
    (alertsEmpty credsPresent smtpOk : Bool)
    (h1 : strToLower (env.emailEnabled.getD ("false")) = "true")
    (h2 : parseRecipients (env.emailTo.getD ("")) = []) :
    (mkEmailSender env).enabled = false
    ∧ sendAlerts (mkEmailSender env) alertsEmpty credsPresent smtpOk =
        ⟨false, false⟩ := by
  have hs : mkEmailSender env = { enabled := false, toEmails := [] } := by
    simp [mkEmailSender, h1, h2]
  rw [hs]
  exact ⟨rfl, rfl⟩

/-- Witness for C10: `EMAIL_ENABLED=true` with a whitespace-and-commas
`EMAIL_TO` yields a disabled sender that sends nothing. -/
theorem email_disabled_without_recipients_witness :
    (mkEmailSender ⟨some ("true"), some (" , ")⟩).enabled = false
    ∧ sendAlerts (mkEmailSender ⟨some ("true"), some (" , ")⟩) false true true =
        ⟨false, false⟩ :=
  email_disabled_without_recipients ⟨some ("true"), some (" , ")⟩ false true true
    (by decide) (by decide)

end Recon
